import Mathlib

/-!
Verification of the data-ingestion and query engine of `Oblik_PySide.py`
(accounting/stock spreadsheet search tool).

The Python source is shallowly embedded: pandas cells become the closed
variant `Cell` (number / text / missing), rows become `List Cell`, grids a
list of rows with an explicit column count, and every Python string
operation used by the source (`str.lower`, `str.strip`, `str.replace`,
`in`, `str.endswith`, `os.path.basename`) is re-implemented structurally
over `List Char` so that all definitions are executable and kernel-reduce.

Python floats are modelled as exact rationals.  The parts of Python
behaviour that the source exercises are modelled faithfully; deliberate
modelling boundaries (e.g. `float()` exponent syntax, full-Unicode
lowercasing) are noted at the definition they concern.
-/

/-! ## Python string primitives, over `List Char` -/

/-- Whitespace as stripped by Python `str.strip()` (ASCII part: space, tab,
newline, carriage return, vertical tab, form feed). -/
def pyWs (c : Char) : Bool :=
  c == ' ' || c == '\t' || c == '\n' || c == '\r' || c == '\x0b' || c == '\x0c'

/-- Python `str.strip()`: drop leading and trailing whitespace. -/
def pyStripL (l : List Char) : List Char :=
  ((l.dropWhile pyWs).reverse.dropWhile pyWs).reverse

def pyStrip (s : String) : String :=
  String.mk (pyStripL s.data)

/-- One character of Python `str.lower()`.  Modelled for the alphabets the
source's data actually uses: ASCII plus the Cyrillic range `А`..`Я` and the
Ukrainian letters `Ё Є І Ї Ґ`; other characters are left unchanged
(Python lowercases all of Unicode). -/
def pyLowerChar (c : Char) : Char :=
  if 'A' ≤ c && c ≤ 'Z' then Char.ofNat (c.toNat + 32)
  else if 0x410 ≤ c.toNat && c.toNat ≤ 0x42F then Char.ofNat (c.toNat + 0x20)
  else if c.toNat == 0x401 then Char.ofNat 0x451
  else if c.toNat == 0x404 then Char.ofNat 0x454
  else if c.toNat == 0x406 then Char.ofNat 0x456
  else if c.toNat == 0x407 then Char.ofNat 0x457
  else if c.toNat == 0x490 then Char.ofNat 0x491
  else c

def pyLower (s : String) : String :=
  String.mk (s.data.map pyLowerChar)

/-- Python substring test `pat in s` (always literal, never regex). -/
def listHasInfix (s pat : List Char) : Bool :=
  match s with
  | [] => pat.isEmpty
  | _ :: t => pat.isPrefixOf s || listHasInfix t pat

def strHasInfix (s pat : String) : Bool :=
  listHasInfix s.data pat.data

/-- Python `str.endswith`. -/
def strEndsWith (s suffixStr : String) : Bool :=
  suffixStr.data.isSuffixOf s.data

/-- Python `str.replace(pat, rep)` for a non-empty pattern: replace every
occurrence, scanning left to right, non-overlapping.  The `Nat` argument is
recursion fuel; `pyReplace` supplies `s.length`, which suffices because each
step consumes at least one character of `s`. -/
def pyReplaceAux (pat rep : List Char) : Nat → List Char → List Char
  | 0, s => s
  | _ + 1, [] => []
  | fuel + 1, c :: rest =>
    if pat.isPrefixOf (c :: rest) then
      rep ++ pyReplaceAux pat rep fuel ((c :: rest).drop pat.length)
    else
      c :: pyReplaceAux pat rep fuel rest

def pyReplace (s pat rep : String) : String :=
  String.mk (pyReplaceAux pat.data rep.data s.data.length s.data)

/-- `os.path.basename`: the part of the path after the last `/`. -/
def pyBasename (p : String) : String :=
  String.mk ((p.data.reverse.takeWhile (fun c => c != '/')).reverse)

/-! ## The cell model -/

/-- One spreadsheet cell as pandas delivers it with `header=None`:
a (float) number, a text string, or missing (`NaN`). -/
inductive Cell where
  | num (q : ℚ)
  | str (s : String)
  | empty
deriving DecidableEq, Repr

/-- `pd.isna` on a cell. -/
def Cell.isNa : Cell → Bool
  | .empty => true
  | _ => false

/-- Value of a digit string, most significant first. -/
def digitsVal (l : List Char) : Nat :=
  l.foldl (fun acc c => 10 * acc + (c.toNat - 48)) 0

/-- Python `float(s)` on the decimal forms occurring in spreadsheet text:
optional surrounding whitespace, optional sign, digits with an optional
fractional part (`"12"`, `"12."`, `".5"`, `"-3.25"`).  Exponent, `inf`/`nan`
words and digit underscores are outside the modelled data domain and are
rejected here. -/
def parseDecimal (s : String) : Option ℚ :=
  let t := pyStripL s.data
  let (sign, rest) : ℚ × List Char :=
    match t with
    | '-' :: r => (-1, r)
    | '+' :: r => (1, r)
    | r => (1, r)
  let intPart := rest.takeWhile Char.isDigit
  let rest2 := rest.dropWhile Char.isDigit
  match rest2 with
  | [] => if intPart.isEmpty then none else some (sign * (digitsVal intPart : ℚ))
  | '.' :: frac =>
    if frac.all Char.isDigit && !(intPart.isEmpty && frac.isEmpty) then
      some (sign * ((digitsVal intPart : ℚ) + (digitsVal frac : ℚ) / (10 : ℚ) ^ frac.length))
    else none
  | _ => none

/-- Python `float(cell)` as used by the source, combined with the source's
downstream handling of `NaN`: a missing cell converts to `nan`, and every
place the source converts cells it either formats `nan` as the empty string
(`format_number`, via `pd.isna`) or lets `nan` propagate into a value that
is then formatted as the empty string (`show_results`' purchase).  `none`
therefore stands for "no usable number" (conversion error or `nan`). -/
def Cell.toFloat : Cell → Option ℚ
  | .num q => some q
  | .str s => parseDecimal s
  | .empty => none

/-- Left-pad a digit string with zeros to width `w`. -/
def padZeros (w : Nat) (s : List Char) : List Char :=
  List.replicate (w - s.length) '0' ++ s

/-- Python `str()` of a float, for floats that are exact decimals: an
integral value renders as `"N.0"`, other values with their decimal digits.
Values with no terminating decimal expansion (not producible from
spreadsheet numbers) fall back to the rational's own print form. -/
def ratStr (q : ℚ) : String :=
  match (List.range 18).find? (fun e => (q * (10 : ℚ) ^ e).den == 1) with
  | some 0 => String.mk ((toString q.num).data ++ ['.', '0'])
  | some e =>
    let n := (q * (10 : ℚ) ^ e).num
    let signPart : List Char := if n < 0 then ['-'] else []
    let a := n.natAbs
    let p : Nat := 10 ^ e
    String.mk (signPart ++ (toString (a / p)).data ++ '.' :: padZeros e (toString (a % p)).data)
  | none => toString q

/-- Python `str(cell)`: numbers via float printing, text verbatim, and a
missing cell prints as `"nan"` (the pandas `astype(str)` artifact the
source depends on). -/
def pyStr : Cell → String
  | .num q => ratStr q
  | .str s => s
  | .empty => "nan"

/-- Python 3 `round()` to an integer: round-half-to-even. -/
def pyRound (q : ℚ) : Int :=
  let f := q.floor
  let frac := q - (f : ℚ)
  if frac < 1 / 2 then f
  else if 1 / 2 < frac then f + 1
  else if f % 2 = 0 then f else f + 1

/-- `format_number` (source lines 54-61): blank for `NaN`, otherwise
`str(int(round(float(val))))` when the value converts, else `str(val)`. -/
def format_number : Cell → String
  | .empty => ""
  | .num q => toString (pyRound q)
  | .str s =>
    match parseDecimal s with
    | some q => toString (pyRound q)
    | none => s

/-! ## Column mapping and the search/display pipeline -/

/-- The six-field column mapping (`self.column_mapping`); field names
transliterate the source's keys: `name` = Найменування, `zakup` = Закуп
(purchase slot), `pryb` = Приб (profit), `tsina` = Ціна (price),
`kod` = Код (code), `art` = Арт (article).  All six keys are always
present in the source dictionary. -/
structure ColumnMapping where
  name : Nat
  zakup : Nat
  pryb : Nat
  tsina : Nat
  kod : Nat
  art : Nat
deriving DecidableEq, Repr

/-- `row.iloc[i]` for an in-range index (out-of-range access raises in
pandas; theorems that need it carry in-range hypotheses). -/
def cellAt (row : List Cell) (i : Nat) : Cell :=
  row.getD i Cell.empty

/-- The code-display transform applied to a Code cell's string in
`show_results` (lines 784-788) and to the logged code in `search_items`
(lines 753-755): when the string ends with `".0"`, `replace(".0", "")` is
applied — which removes every occurrence of `".0"`, not only the suffix. -/
def display_code (cv : String) : String :=
  if strEndsWith cv ".0" then pyReplace cv ".0" "" else cv

/-- One displayed row of `show_results` (source lines 775-805), in the
column order [Найменування, Закуп, Приб, Ціна, Код, Арт].  The Закуп
(purchase) column is computed as price − profit from the Ціна and Приб
cells; a conversion failure (or `nan`) in either yields the blank string. -/
def show_row (m : ColumnMapping) (row : List Cell) : List String :=
  let code_value := display_code (pyStr (cellAt row m.kod))
  let purchase : Option ℚ :=
    match (cellAt row m.tsina).toFloat, (cellAt row m.pryb).toFloat with
    | some p, some pr => some (p - pr)
    | _, _ => none
  [ pyStr (cellAt row m.name),
    (match purchase with
     | some v => format_number (Cell.num v)
     | none => ""),
    format_number (cellAt row m.pryb),
    format_number (cellAt row m.tsina),
    code_value,
    pyStr (cellAt row m.art) ]

/-- The per-row match test of `search_items` (source lines 731-738): the
lower-cased string form of the Найменування, Код and Арт cells each tested
for the lower-cased query as a literal substring (`regex=False`); the row
matches when any of the three does. -/
def row_matches (m : ColumnMapping) (queryLower : String) (row : List Cell) : Bool :=
  strHasInfix (pyLower (pyStr (cellAt row m.name))) queryLower ||
  strHasInfix (pyLower (pyStr (cellAt row m.kod))) queryLower ||
  strHasInfix (pyLower (pyStr (cellAt row m.art))) queryLower

/-- The filtering part of `search_items` (source lines 724-741, 768-769):
strip the search text; an empty result keeps the whole table, otherwise
keep exactly the matching rows in order. -/
def search_items (m : ColumnMapping) (table : List (List Cell)) (text : String) :
    List (List Cell) :=
  let query := pyStrip text
  if query = "" then table
  else table.filter (row_matches m (pyLower query))

/-- The history message built by `search_items` for a unique search result
(source lines 744-761): `query ➔ profit ➔ price ➔ name` when the query
occurs (case-insensitively) in the code cell's string with `".0"`
occurrences removed, else `query ➔ profit ➔ price ➔ code` with the code
passed through the same `".0"` transform as the display. -/
def history_message (m : ColumnMapping) (query : String) (r : List Cell) : String :=
  let nameStr := pyStr (cellAt r m.name)
  let price := format_number (cellAt r m.tsina)
  let profit := format_number (cellAt r m.pryb)
  let code := display_code (pyStr (cellAt r m.kod))
  let code_cell := pyStr (cellAt r m.kod)
  if strHasInfix (pyLower (pyReplace code_cell ".0" "")) (pyLower query) then
    query ++ " ➔ " ++ profit ++ " ➔ " ++ price ++ " ➔ " ++ nameStr
  else
    query ++ " ➔ " ++ profit ++ " ➔ " ++ price ++ " ➔ " ++ code

example : pyReplace "1.05.0" ".0" "" = "15" := by decide
example : display_code "4680.0" = "4680" := by decide
example : pyStrip "  абв " = "абв" := by decide
example : pyLower "АБВгд XYz" = "абвгд xyz" := by decide
example : strHasInfix "Шарік синій" "арік" = true := by decide

/-! ## Claims C1-C3 -/

theorem cellAt_set_ne (row : List Cell) (k i : Nat) (v : Cell) (h : i ≠ k) :
    cellAt (row.set k v) i = cellAt row i := by
  simp [cellAt, List.getD, List.getElem?_set_ne (Ne.symm h)]

/-- The claim's reading of the Purchase field: price minus profit from the
two named cells, blank when either fails to convert to a number. -/
def purchase_of (price profit : Cell) : String :=
  match price.toFloat, profit.toFloat with
  | some p, some pr => format_number (Cell.num (p - pr))
  | _, _ => ""

/-- Claim C1: the displayed Purchase (Закуп) field always equals
Price − Profit computed from the row's Ціна and Приб cells (blank when
either fails numeric conversion), and it never depends on the raw cell in
the column the mapping assigns to the Закуп slot. -/
theorem C1_purchase_is_price_minus_profit (m : ColumnMapping) (row : List Cell)
    (hzt : m.zakup ≠ m.tsina) (hzp : m.zakup ≠ m.pryb) :
    (show_row m row).getD 1 "" = purchase_of (cellAt row m.tsina) (cellAt row m.pryb) ∧
    ∀ v : Cell, (show_row m (row.set m.zakup v)).getD 1 "" = (show_row m row).getD 1 "" := by
  constructor
  · cases h1 : (cellAt row m.tsina).toFloat <;>
      cases h2 : (cellAt row m.pryb).toFloat <;>
      simp [show_row, purchase_of, h1, h2]
  · intro v
    have e1 : cellAt (row.set m.zakup v) m.tsina = cellAt row m.tsina :=
      cellAt_set_ne row m.zakup m.tsina v (Ne.symm hzt)
    have e2 : cellAt (row.set m.zakup v) m.pryb = cellAt row m.pryb :=
      cellAt_set_ne row m.zakup m.pryb v (Ne.symm hzp)
    cases h1 : (cellAt row m.tsina).toFloat <;>
      cases h2 : (cellAt row m.pryb).toFloat <;>
      simp [show_row, e1, e2, h1, h2]

/-- The default column mapping of the source (start column 0). -/
def cmDefault : ColumnMapping := ⟨0, 1, 4, 5, 7, 6⟩

/-- A sample displayed row: text cells only, with price and profit as the
numeric strings pandas would deliver from a text export. -/
def rowC1 : List Cell :=
  [Cell.str "Товар", Cell.str "ігнорується", Cell.empty, Cell.empty,
   Cell.str "5", Cell.str "20", Cell.str "A1", Cell.str "123.0"]

theorem C1_witness :
    (show_row cmDefault rowC1).getD 1 "" =
      purchase_of (cellAt rowC1 cmDefault.tsina) (cellAt rowC1 cmDefault.pryb) ∧
    ∀ v : Cell,
      (show_row cmDefault (rowC1.set cmDefault.zakup v)).getD 1 "" =
        (show_row cmDefault rowC1).getD 1 "" :=
  C1_purchase_is_price_minus_profit cmDefault rowC1 (by decide) (by decide)

/-- Claim C2: an empty or whitespace-only query returns the table
unchanged; a non-empty query returns exactly the rows one of whose
Найменування, Код or Арт cells contains the query case-insensitively as a
literal substring; the result is always an order-preserving sublist of the
table. -/
theorem C2_search_filter (m : ColumnMapping) (t : List (List Cell)) (text : String)
    (_hw : ∀ r ∈ t, m.name < r.length ∧ m.kod < r.length ∧ m.art < r.length) :
    (pyStrip text = "" → search_items m t text = t) ∧
    (search_items m t text).Sublist t ∧
    (pyStrip text ≠ "" →
      ∀ r, r ∈ search_items m t text ↔
        r ∈ t ∧ row_matches m (pyLower (pyStrip text)) r = true) := by
  refine ⟨fun h => by simp [search_items, h], ?_, fun h r => ?_⟩
  · by_cases h : pyStrip text = ""
    · simp [search_items, h]
    · simp [search_items, h]
  · simp [search_items, h, List.mem_filter]

/-- A sample table for the search claims. -/
def tblC2 : List (List Cell) :=
  [[Cell.str "Шарік червоний", Cell.empty, Cell.empty, Cell.empty,
    Cell.str "5", Cell.str "20", Cell.str "A1", Cell.str "100.0"],
   [Cell.str "Балон", Cell.empty, Cell.empty, Cell.empty,
    Cell.str "3", Cell.str "10", Cell.str "B2", Cell.str "200.0"]]

theorem C2_witness :
    (pyStrip "  " = "" → search_items cmDefault tblC2 "  " = tblC2) ∧
    (search_items cmDefault tblC2 "  ").Sublist tblC2 ∧
    (pyStrip "  " ≠ "" →
      ∀ r, r ∈ search_items cmDefault tblC2 "  " ↔
        r ∈ tblC2 ∧ row_matches cmDefault (pyLower (pyStrip "  ")) r = true) :=
  C2_search_filter cmDefault tblC2 "  " (by decide)

/-- Claim C3 counterexample: the Code string `"1.05.0"` ends with `".0"`,
but the displayed code is `"15"` — `replace(".0", "")` removed the inner
`".0"` as well — not `"1.05"` as removing only the trailing suffix would
give. -/
theorem C3_counterexample :
    strEndsWith "1.05.0" ".0" = true ∧
    (show_row ⟨0, 0, 0, 0, 0, 0⟩ [Cell.str "1.05.0"]).getD 4 "" = "15" ∧
    ("15" : String) ≠ "1.05" := by
  exact ⟨by decide, by decide, by decide⟩

/-- Claim C3 (amended): for a Code cell whose string form ends with
`".0"`, the displayed code and the code written to the history log equal
that string with every occurrence of the substring `".0"` removed (the
source uses `replace(".0", "")`, not a suffix strip); strings not ending
with `".0"` pass through verbatim; display and history logging share the
same transform. -/
theorem C3_code_strip_amended (m : ColumnMapping) (row : List Cell) (q s : String) :
    (show_row m row).getD 4 "" = display_code (pyStr (cellAt row m.kod)) ∧
    (strHasInfix (pyLower (pyReplace (pyStr (cellAt row m.kod)) ".0" "")) (pyLower q) = false →
      history_message m q row =
        q ++ " ➔ " ++ format_number (cellAt row m.pryb) ++ " ➔ " ++
          format_number (cellAt row m.tsina) ++ " ➔ " ++
          display_code (pyStr (cellAt row m.kod))) ∧
    (strEndsWith s ".0" = false → display_code s = s) ∧
    (strEndsWith s ".0" = true → display_code s = pyReplace s ".0" "") := by
  refine ⟨by simp [show_row], fun h => by simp [history_message, h], fun h => ?_, fun h => ?_⟩
  · simp [display_code, h]
  · simp [display_code, h]

theorem C3_witness :
    (show_row cmDefault rowC1).getD 4 "" = display_code (pyStr (cellAt rowC1 cmDefault.kod)) ∧
    (history_message cmDefault "шарік" rowC1 =
      "шарік" ++ " ➔ " ++ format_number (cellAt rowC1 cmDefault.pryb) ++ " ➔ " ++
        format_number (cellAt rowC1 cmDefault.tsina) ++ " ➔ " ++
        display_code (pyStr (cellAt rowC1 cmDefault.kod))) ∧
    display_code "A1" = "A1" ∧
    display_code "41.0" = pyReplace "41.0" ".0" "" :=
  ⟨(C3_code_strip_amended cmDefault rowC1 "шарік" "").1,
   (C3_code_strip_amended cmDefault rowC1 "шарік" "").2.1 (by decide),
   (C3_code_strip_amended cmDefault rowC1 "шарік" "A1").2.2.1 (by decide),
   (C3_code_strip_amended cmDefault rowC1 "шарік" "41.0").2.2.2 (by decide)⟩

/-! ## Filename date extraction (C4)

The source (lines 64-81) runs
`re.search(r'(\d{1,2})[.,-](\d{1,2})(?:[.,-](\d{2,4})?)', filename)`.
The pattern is embedded operationally below with Python's leftmost scan
and greedy backtracking order: two-digit groups are tried before
one-digit ones, the year group tries 4, then 3, then 2 digits, then the
empty alternative.  Note that the non-capturing group makes the second
separator mandatory; only the year digits inside it are optional. -/

def isSepC (c : Char) : Bool := c == '.' || c == ',' || c == '-'

/-- Match exactly `n` digits at the head; return them and the remainder. -/
def takeExact : Nat → List Char → Option (List Char × List Char)
  | 0, cs => some ([], cs)
  | _ + 1, [] => none
  | n + 1, c :: cs =>
    match c.isDigit, takeExact n cs with
    | true, some (ds, rest) => some (c :: ds, rest)
    | _, _ => none

/-- Match one separator character at the head. -/
def takeSep : List Char → Option (List Char)
  | [] => none
  | c :: cs =>
    match isSepC c with
    | true => some cs
    | false => none

/-- The optional year group `(\d{2,4})?`, greedy: 4 digits, else 3, else 2,
else absent. -/
def takeYear (cs : List Char) : Option Nat :=
  match takeExact 4 cs with
  | some (ds, _) => some (digitsVal ds)
  | none =>
    match takeExact 3 cs with
    | some (ds, _) => some (digitsVal ds)
    | none =>
      match takeExact 2 cs with
      | some (ds, _) => some (digitsVal ds)
      | none => none

/-- Month group of width `n` followed by the mandatory separator and the
optional year. -/
def tryMonth (n : Nat) (cs : List Char) : Option (Nat × Option Nat) :=
  match takeExact n cs with
  | none => none
  | some (ms, r1) =>
    match takeSep r1 with
    | none => none
    | some r2 => some (digitsVal ms, takeYear r2)

def matchTail (cs : List Char) : Option (Nat × Option Nat) :=
  match tryMonth 2 cs with
  | some r => some r
  | none => tryMonth 1 cs

/-- Day group of width `n`, separator, then the month/year tail. -/
def tryDay (n : Nat) (cs : List Char) : Option (Nat × Nat × Option Nat) :=
  match takeExact n cs with
  | none => none
  | some (ds, r1) =>
    match takeSep r1 with
    | none => none
    | some r2 =>
      match matchTail r2 with
      | none => none
      | some (m, yr) => some (digitsVal ds, m, yr)

/-- The whole pattern anchored at the current position. -/
def reMatchHere (cs : List Char) : Option (Nat × Nat × Option Nat) :=
  match tryDay 2 cs with
  | some r => some r
  | none => tryDay 1 cs

/-- `re.search`: leftmost position whose anchored match succeeds. -/
def reSearchDate : List Char → Option (Nat × Nat × Option Nat)
  | [] => none
  | c :: rest =>
    match reMatchHere (c :: rest) with
    | some r => some r
    | none => reSearchDate rest

/-- `datetime` dates; only year/month/day are used by the source. -/
structure PyDate where
  year : Nat
  month : Nat
  day : Nat
deriving DecidableEq, Repr

/-- `datetime.min`, the sentinel for unparsable or invalid dates. -/
def dateMin : PyDate := ⟨1, 1, 1⟩

def isLeap (y : Nat) : Bool := (y % 4 == 0 && y % 100 != 0) || y % 400 == 0

def daysInMonth (y m : Nat) : Nat :=
  if m == 2 then (if isLeap y then 29 else 28)
  else if m == 4 || m == 6 || m == 9 || m == 11 then 30
  else 31

/-- The `datetime(year, month, day)` constructor's validity check
(`MINYEAR = 1`, `MAXYEAR = 9999`). -/
def validDate (y m d : Nat) : Bool :=
  1 ≤ y && y ≤ 9999 && 1 ≤ m && m ≤ 12 && 1 ≤ d && d ≤ daysInMonth y m

/-- The year-defaulting, century and validity rules of
`extract_date_from_filename` (source lines 72-81): missing year becomes the
current year, a year below 100 gains 2000, and a calendar-invalid result
falls back to `datetime.min`. -/
def resolve_date (currentYear d m : Nat) (yr : Option Nat) : PyDate :=
  let yv := yr.getD currentYear
  let yv := if yv < 100 then yv + 2000 else yv
  if validDate yv m d then ⟨yv, m, d⟩ else dateMin

/-- `extract_date_from_filename` (source lines 64-81); the current year is
an explicit parameter standing for `datetime.now().year`. -/
def extract_date_from_filename (currentYear : Nat) (filename : String) : PyDate :=
  match reSearchDate filename.data with
  | none => dateMin
  | some (d, m, yr) => resolve_date currentYear d m yr

/-- Declarative shape of a date substring at the head of `cs`, written from
the (amended) specification: one or two digits, a separator, one or two
digits, a mandatory separator, and — when the match reports a year `v` —
two to four digits valued `v` follow that separator. -/
def dateMatchAt (cs : List Char) (d m : Nat) (yr : Option Nat) : Prop :=
  ∃ ds s1 ms s2 rest,
    cs = ds ++ s1 :: (ms ++ s2 :: rest) ∧
    (ds.length = 1 ∨ ds.length = 2) ∧ ds.all Char.isDigit = true ∧ isSepC s1 = true ∧
    (ms.length = 1 ∨ ms.length = 2) ∧ ms.all Char.isDigit = true ∧ isSepC s2 = true ∧
    d = digitsVal ds ∧ m = digitsVal ms ∧
    ∀ v, yr = some v →
      ∃ ys rest2, rest = ys ++ rest2 ∧ ys.all Char.isDigit = true ∧
        (ys.length = 2 ∨ ys.length = 3 ∨ ys.length = 4) ∧ v = digitsVal ys

theorem not_digit_of_sep (c : Char) (h : isSepC c = true) : c.isDigit = false := by
  simp only [isSepC, Bool.or_eq_true, beq_iff_eq] at h
  rcases h with (h | h) | h <;> subst h <;> decide

theorem takeExact_sound : ∀ (n : Nat) (cs ds rest : List Char),
    takeExact n cs = some (ds, rest) →
    cs = ds ++ rest ∧ ds.length = n ∧ ds.all Char.isDigit = true := by
  intro n
  induction n with
  | zero =>
    intro cs ds rest h
    simp only [takeExact, Option.some.injEq, Prod.mk.injEq] at h
    obtain ⟨h1, h2⟩ := h
    subst h1; subst h2
    simp
  | succ k ih =>
    intro cs ds rest h
    cases cs with
    | nil => simp [takeExact] at h
    | cons c t =>
      cases hc : c.isDigit with
      | false => simp [takeExact, hc] at h
      | true =>
        cases ht : takeExact k t with
        | none => simp [takeExact, hc, ht] at h
        | some pr =>
          obtain ⟨ds', rest'⟩ := pr
          simp only [takeExact, hc, ht, Option.some.injEq, Prod.mk.injEq] at h
          obtain ⟨h1, h2⟩ := h
          obtain ⟨e1, e2, e3⟩ := ih t ds' rest' ht
          subst h1; subst h2
          refine ⟨by rw [e1]; simp, by simp [e2], ?_⟩
          simp [List.all_cons, hc, e3]

theorem takeSep_sound (cs rest : List Char) (h : takeSep cs = some rest) :
    ∃ c, cs = c :: rest ∧ isSepC c = true := by
  cases cs with
  | nil => simp [takeSep] at h
  | cons c t =>
    cases hc : isSepC c with
    | false => simp [takeSep, hc] at h
    | true =>
      simp only [takeSep, hc, Option.some.injEq] at h
      exact ⟨c, by rw [h], hc⟩

theorem takeYear_sound (cs : List Char) (v : Nat) (h : takeYear cs = some v) :
    ∃ ys rest2, cs = ys ++ rest2 ∧ ys.all Char.isDigit = true ∧
      (ys.length = 2 ∨ ys.length = 3 ∨ ys.length = 4) ∧ v = digitsVal ys := by
  unfold takeYear at h
  cases h4 : takeExact 4 cs with
  | some pr =>
    obtain ⟨ds, r⟩ := pr
    rw [h4] at h
    simp only [Option.some.injEq] at h
    obtain ⟨e1, _, e3⟩ := takeExact_sound 4 cs ds r h4
    exact ⟨ds, r, e1, e3, Or.inr (Or.inr (takeExact_sound 4 cs ds r h4).2.1), h.symm⟩
  | none =>
    rw [h4] at h
    cases h3 : takeExact 3 cs with
    | some pr =>
      obtain ⟨ds, r⟩ := pr
      rw [h3] at h
      simp only [Option.some.injEq] at h
      obtain ⟨e1, e2, e3⟩ := takeExact_sound 3 cs ds r h3
      exact ⟨ds, r, e1, e3, Or.inr (Or.inl e2), h.symm⟩
    | none =>
      rw [h3] at h
      cases h2 : takeExact 2 cs with
      | some pr =>
        obtain ⟨ds, r⟩ := pr
        rw [h2] at h
        simp only [Option.some.injEq] at h
        obtain ⟨e1, e2, e3⟩ := takeExact_sound 2 cs ds r h2
        exact ⟨ds, r, e1, e3, Or.inl e2, h.symm⟩
      | none => rw [h2] at h; simp at h

theorem tryMonth_sound (n : Nat) (cs : List Char) (m : Nat) (yr : Option Nat)
    (h : tryMonth n cs = some (m, yr)) :
    ∃ ms s2 rest, cs = ms ++ s2 :: rest ∧ ms.length = n ∧ ms.all Char.isDigit = true ∧
      isSepC s2 = true ∧ m = digitsVal ms ∧ yr = takeYear rest := by
  unfold tryMonth at h
  cases he : takeExact n cs with
  | none => simp [he] at h
  | some pr =>
    obtain ⟨ms, r1⟩ := pr
    simp only [he] at h
    cases hs : takeSep r1 with
    | none => simp [hs] at h
    | some r2 =>
      simp only [hs, Option.some.injEq, Prod.mk.injEq] at h
      obtain ⟨hm, hyr⟩ := h
      obtain ⟨hcs, hlen, hdig⟩ := takeExact_sound n cs ms r1 he
      obtain ⟨s2, hr1, hsep⟩ := takeSep_sound r1 r2 hs
      exact ⟨ms, s2, r2, by rw [hcs, hr1], hlen, hdig, hsep, hm.symm, hyr.symm⟩

theorem matchTail_sound (cs : List Char) (m : Nat) (yr : Option Nat)
    (h : matchTail cs = some (m, yr)) :
    ∃ ms s2 rest, cs = ms ++ s2 :: rest ∧ (ms.length = 1 ∨ ms.length = 2) ∧
      ms.all Char.isDigit = true ∧ isSepC s2 = true ∧ m = digitsVal ms ∧
      yr = takeYear rest := by
  unfold matchTail at h
  cases h2 : tryMonth 2 cs with
  | some r =>
    simp only [h2, Option.some.injEq] at h
    subst h
    obtain ⟨ms, s2, rest, e, hl, hd, hs, hm, hy⟩ := tryMonth_sound 2 cs m yr h2
    exact ⟨ms, s2, rest, e, Or.inr hl, hd, hs, hm, hy⟩
  | none =>
    simp only [h2] at h
    obtain ⟨ms, s2, rest, e, hl, hd, hs, hm, hy⟩ := tryMonth_sound 1 cs m yr h
    exact ⟨ms, s2, rest, e, Or.inl hl, hd, hs, hm, hy⟩

theorem tryDay_sound (n : Nat) (cs : List Char) (d m : Nat) (yr : Option Nat)
    (h : tryDay n cs = some (d, m, yr)) :
    ∃ ds s1 r2, cs = ds ++ s1 :: r2 ∧ ds.length = n ∧ ds.all Char.isDigit = true ∧
      isSepC s1 = true ∧ d = digitsVal ds ∧ matchTail r2 = some (m, yr) := by
  unfold tryDay at h
  cases he : takeExact n cs with
  | none => simp [he] at h
  | some pr =>
    obtain ⟨ds, r1⟩ := pr
    simp only [he] at h
    cases hs : takeSep r1 with
    | none => simp [hs] at h
    | some r2 =>
      simp only [hs] at h
      cases hmt : matchTail r2 with
      | none => simp [hmt] at h
      | some pr2 =>
        obtain ⟨mv, yv⟩ := pr2
        simp only [hmt, Option.some.injEq, Prod.mk.injEq] at h
        obtain ⟨hd, hm, hy⟩ := h
        obtain ⟨hcs, hlen, hdig⟩ := takeExact_sound n cs ds r1 he
        obtain ⟨s1, hr1, hsep⟩ := takeSep_sound r1 r2 hs
        refine ⟨ds, s1, r2, by rw [hcs, hr1], hlen, hdig, hsep, hd.symm, ?_⟩
        rw [hmt, hm, hy]

theorem reMatchHere_sound (cs : List Char) (d m : Nat) (yr : Option Nat)
    (h : reMatchHere cs = some (d, m, yr)) : dateMatchAt cs d m yr := by
  have build : ∀ n, tryDay n cs = some (d, m, yr) → (n = 1 ∨ n = 2) → dateMatchAt cs d m yr := by
    intro n hn hn12
    obtain ⟨ds, s1, r2, e, hl, hdd, hs1, hdval, hmt⟩ := tryDay_sound n cs d m yr hn
    obtain ⟨ms, s2, rest, e2, hml, hmd, hs2, hmval, hyr⟩ := matchTail_sound r2 m yr hmt
    refine ⟨ds, s1, ms, s2, rest, by rw [e, e2], ?_, hdd, hs1, hml, hmd, hs2, hdval, hmval, ?_⟩
    · rcases hn12 with rfl | rfl
      · exact Or.inl hl
      · exact Or.inr hl
    · intro v hv
      rw [hv] at hyr
      exact takeYear_sound rest v hyr.symm
  unfold reMatchHere at h
  cases h2 : tryDay 2 cs with
  | some r =>
    simp only [h2, Option.some.injEq] at h
    subst h
    exact build 2 h2 (Or.inr rfl)
  | none =>
    simp only [h2] at h
    exact build 1 h (Or.inl rfl)

theorem reMatchHere_isSome_of_shape (cs : List Char) (d m : Nat)
    (h : dateMatchAt cs d m none) : (reMatchHere cs).isSome = true := by
  obtain ⟨ds, s1, ms, s2, rest, rfl, hdl, hdd, hs1, hml, hmd, hs2, _, _, _⟩ := h
  have hs1d : s1.isDigit = false := not_digit_of_sep s1 hs1
  have hs2d : s2.isDigit = false := not_digit_of_sep s2 hs2
  have hTail : (matchTail (ms ++ s2 :: rest)).isSome = true := by
    rcases hml with h1 | h2
    · obtain ⟨x, rfl⟩ := List.length_eq_one.mp h1
      simp only [List.all_cons, List.all_nil, Bool.and_true] at hmd
      simp [matchTail, tryMonth, takeExact, takeSep, hmd, hs2d, hs2]
    · obtain ⟨x, y, rfl⟩ := List.length_eq_two.mp h2
      simp only [List.all_cons, List.all_nil, Bool.and_true, Bool.and_eq_true] at hmd
      obtain ⟨hx, hy⟩ := hmd
      simp [matchTail, tryMonth, takeExact, takeSep, hx, hy, hs2]
  rcases hmt : matchTail (ms ++ s2 :: rest) with _ | ⟨mv, yv⟩
  · rw [hmt] at hTail; simp at hTail
  · rcases hdl with h1 | h2
    · obtain ⟨a, rfl⟩ := List.length_eq_one.mp h1
      simp only [List.all_cons, List.all_nil, Bool.and_true] at hdd
      simp [reMatchHere, tryDay, takeExact, takeSep, hdd, hs1d, hs1, hmt]
    · obtain ⟨a, b, rfl⟩ := List.length_eq_two.mp h2
      simp only [List.all_cons, List.all_nil, Bool.and_true, Bool.and_eq_true] at hdd
      obtain ⟨ha, hb⟩ := hdd
      simp [reMatchHere, tryDay, takeExact, takeSep, ha, hb, hs1, hmt]

theorem dateMatchAt_year_erased (cs : List Char) (d m : Nat) (yr : Option Nat)
    (h : dateMatchAt cs d m yr) : dateMatchAt cs d m none := by
  obtain ⟨ds, s1, ms, s2, rest, e, h1, h2, h3, h4, h5, h6, h7, h8, _⟩ := h
  exact ⟨ds, s1, ms, s2, rest, e, h1, h2, h3, h4, h5, h6, h7, h8, by simp⟩

theorem reSearchDate_sound : ∀ (cs : List Char) (d m : Nat) (yr : Option Nat),
    reSearchDate cs = some (d, m, yr) → ∃ i, dateMatchAt (cs.drop i) d m yr := by
  intro cs
  induction cs with
  | nil => intro d m yr h; simp [reSearchDate] at h
  | cons c rest ih =>
    intro d m yr h
    unfold reSearchDate at h
    cases hm : reMatchHere (c :: rest) with
    | some r =>
      simp only [hm, Option.some.injEq] at h
      subst h
      exact ⟨0, reMatchHere_sound (c :: rest) d m yr hm⟩
    | none =>
      simp only [hm] at h
      obtain ⟨i, hi⟩ := ih d m yr h
      exact ⟨i + 1, by simpa using hi⟩

theorem reSearchDate_complete : ∀ (cs : List Char),
    reSearchDate cs = none → ∀ (i d m : Nat), ¬ dateMatchAt (cs.drop i) d m none := by
  intro cs
  induction cs with
  | nil =>
    intro _ i d m hcontra
    obtain ⟨ds, s1, ms, s2, rest, e, hdl, _⟩ := hcontra
    exact absurd e (by simp)
  | cons c rest ih =>
    intro h i d m hcontra
    unfold reSearchDate at h
    cases hm : reMatchHere (c :: rest) with
    | some r => simp [hm] at h
    | none =>
      simp only [hm] at h
      cases i with
      | zero =>
        have := reMatchHere_isSome_of_shape (c :: rest) d m (by simpa using hcontra)
        rw [hm] at this
        simp at this
      | succ j =>
        exact ih h j d m (by simpa using hcontra)

/-- Claim C4 counterexample: the filename `"Oblik 1.3"` contains the
substring `"1.3"` — digit, separator, digit, with the year part absent —
so under the claim the extracted date would be 1 March of the current year
(2026 here, a valid date); the code instead returns the `datetime.min`
sentinel, because its regex demands a second separator after the month. -/
theorem C4_counterexample :
    ("Oblik 1.3".data.drop 6 = ['1', '.', '3']) ∧
    Char.isDigit '1' = true ∧ isSepC '.' = true ∧ Char.isDigit '3' = true ∧
    validDate 2026 3 1 = true ∧
    extract_date_from_filename 2026 "Oblik 1.3" = dateMin ∧
    dateMin ≠ (⟨2026, 3, 1⟩ : PyDate) := by
  refine ⟨by decide, by decide, by decide, by decide, by decide, by decide, by decide⟩

/-- Claim C4 (amended): date extraction scans for one-or-two digits, a
separator in {`.`, `,`, `-`}, one-or-two digits, then a mandatory
separator followed by an optional greedy 2-to-4-digit year; when no such
substring exists the sentinel `datetime.min` is returned; a reported match
is really present in the filename; a missing year defaults to the current
year, a year below 100 gains 2000, and a calendar-invalid result yields
the sentinel rather than an error. -/
theorem C4_date_extraction_amended (y : Nat) (f : String) :
    ((∀ i d m, ¬ dateMatchAt (f.data.drop i) d m none) →
      extract_date_from_filename y f = dateMin) ∧
    (∀ d m yr, reSearchDate f.data = some (d, m, yr) →
      (∃ i, dateMatchAt (f.data.drop i) d m yr) ∧
      extract_date_from_filename y f = resolve_date y d m yr) ∧
    (∀ d m v, reSearchDate f.data = some (d, m, some v) → v < 100 →
      extract_date_from_filename y f =
        (if validDate (v + 2000) m d then ⟨v + 2000, m, d⟩ else dateMin)) ∧
    (∀ d m, reSearchDate f.data = some (d, m, none) →
      extract_date_from_filename y f =
        (if validDate (if y < 100 then y + 2000 else y) m d then
          ⟨(if y < 100 then y + 2000 else y), m, d⟩ else dateMin)) ∧
    (validDate (extract_date_from_filename y f).year (extract_date_from_filename y f).month
        (extract_date_from_filename y f).day = true ∨
      extract_date_from_filename y f = dateMin) := by
  refine ⟨?_, ?_, ?_, ?_, ?_⟩
  · intro h
    cases hr : reSearchDate f.data with
    | none => simp [extract_date_from_filename, hr]
    | some r =>
      obtain ⟨d, m, yr⟩ := r
      obtain ⟨i, hi⟩ := reSearchDate_sound f.data d m yr hr
      exact absurd (dateMatchAt_year_erased _ d m yr hi) (h i d m)
  · intro d m yr hr
    refine ⟨reSearchDate_sound f.data d m yr hr, ?_⟩
    simp [extract_date_from_filename, hr]
  · intro d m v hr hv
    simp [extract_date_from_filename, hr, resolve_date, hv]
  · intro d m hr
    simp only [extract_date_from_filename, hr, resolve_date, Option.getD]
  · cases hr : reSearchDate f.data with
    | none => exact Or.inr (by simp [extract_date_from_filename, hr])
    | some r =>
      obtain ⟨d, m, yr⟩ := r
      simp only [extract_date_from_filename, hr, resolve_date]
      by_cases hv : validDate (if (yr.getD y) < 100 then (yr.getD y) + 2000 else yr.getD y) m d
      · exact Or.inl (by simp [hv])
      · exact Or.inr (by simp [hv])

theorem C4_witness :
    (∃ i, dateMatchAt (("Облік 01.03.24.xlsx").data.drop i) 1 3 (some 24)) ∧
    extract_date_from_filename 2026 "Облік 01.03.24.xlsx" = resolve_date 2026 1 3 (some 24) :=
  (C4_date_extraction_amended 2026 "Облік 01.03.24.xlsx").2.1 1 3 (some 24) (by decide)

/-! ## Picking the latest file (C5) -/

/-- `datetime` ordering is lexicographic on (year, month, day); every date
this program constructs has month and day below 100, so the packed key
compares identically and keeps the ordering computable. -/
def PyDate.key (dt : PyDate) : Nat := dt.year * 10000 + dt.month * 100 + dt.day

/-- One insertion step of a stable descending sort: `x` goes in front of
the first element whose key does not exceed `x`'s, i.e. after every
strictly larger key and before equal ones that came later. -/
def insertDesc {α : Type} (k : α → Nat) (x : α) : List α → List α
  | [] => [x]
  | y :: ys => if k y ≤ k x then x :: y :: ys else y :: insertDesc k x ys

/-- Stable descending sort by key — the observable behaviour of Python's
stable `sorted(..., key=..., reverse=True)` used by `get_latest_file`
(a stable sort's output is uniquely determined by comparator and
stability, so the embedding may use any stable algorithm). -/
def sortDesc {α : Type} (k : α → Nat) : List α → List α
  | [] => []
  | x :: xs => insertDesc k x (sortDesc k xs)

/-- `get_latest_file` (source lines 1019-1022): pair each path with the
date extracted from its basename, sort by date descending (stably), return
the first path, or `None` for no candidates. -/
def get_latest_file (y : Nat) (files : List String) : Option String :=
  match sortDesc (fun fd => fd.2.key)
      (files.map (fun f => (f, extract_date_from_filename y (pyBasename f)))) with
  | [] => none
  | x :: _ => some x.1

theorem sortDesc_head_first_max {α : Type} (k : α → Nat) :
    ∀ l : List α, l ≠ [] →
    ∃ r, (sortDesc k l).head? = some r ∧ r ∈ l ∧ (∀ a ∈ l, k a ≤ k r) ∧
      l.find? (fun a => k a == k r) = some r := by
  intro l
  induction l with
  | nil => intro h; exact absurd rfl h
  | cons x xs ih =>
    intro _
    by_cases hxs : xs = []
    · subst hxs
      refine ⟨x, by simp [sortDesc, insertDesc], by simp, by simp, ?_⟩
      exact List.find?_cons_of_pos _ (by simp)
    · obtain ⟨r', hh, hmem, hbound, hfind⟩ := ih hxs
      cases hs : sortDesc k xs with
      | nil => rw [hs] at hh; simp at hh
      | cons r0 t =>
        rw [hs] at hh
        simp only [List.head?_cons, Option.some.injEq] at hh
        subst hh
        by_cases hc : k r0 ≤ k x
        · refine ⟨x, ?_, by simp, ?_, ?_⟩
          · simp [sortDesc, hs, insertDesc, hc]
          · intro a ha
            rcases List.mem_cons.mp ha with rfl | ha
            · exact le_refl _
            · exact le_trans (hbound a ha) hc
          · exact List.find?_cons_of_pos _ (by simp)
        · have hlt : k x < k r0 := lt_of_not_le hc
          refine ⟨r0, ?_, List.mem_cons_of_mem x hmem, ?_, ?_⟩
          · simp [sortDesc, hs, insertDesc, hc]
          · intro a ha
            rcases List.mem_cons.mp ha with rfl | ha
            · exact le_of_lt hlt
            · exact hbound a ha
          · rw [List.find?_cons_of_neg _ (by simp [Nat.ne_of_lt hlt]), hfind]

/-- Claim C5: on an empty candidate list `get_latest_file` returns `none`;
on a non-empty one it returns a path whose extracted basename date is
maximal, and among candidates with equal extracted dates the one earliest
in the input order (Python's stable descending sort). -/
theorem C5_pick_latest (y : Nat) (files : List String) (hne : files ≠ []) :
    get_latest_file y [] = none ∧
    ∃ r, get_latest_file y files = some r ∧ r ∈ files ∧
      (∀ f ∈ files, (extract_date_from_filename y (pyBasename f)).key ≤
        (extract_date_from_filename y (pyBasename r)).key) ∧
      files.find? (fun f => (extract_date_from_filename y (pyBasename f)).key ==
        (extract_date_from_filename y (pyBasename r)).key) = some r := by
  constructor
  · rfl
  · have hmap : files.map (fun f => (f, extract_date_from_filename y (pyBasename f))) ≠ [] := by
      simpa using hne
    obtain ⟨r, hh, hmem, hbound, hfind⟩ :=
      sortDesc_head_first_max (fun fd : String × PyDate => fd.2.key) _ hmap
    obtain ⟨f0, hf0, rfl⟩ := List.mem_map.mp hmem
    refine ⟨f0, ?_, hf0, ?_, ?_⟩
    · unfold get_latest_file
      cases hs : sortDesc (fun fd : String × PyDate => fd.2.key)
          (files.map (fun f => (f, extract_date_from_filename y (pyBasename f)))) with
      | nil => rw [hs] at hh; simp at hh
      | cons a t =>
        rw [hs] at hh
        simp only [List.head?_cons, Option.some.injEq] at hh
        rw [hh]
    · intro f hf
      have hb := hbound (f, extract_date_from_filename y (pyBasename f))
        (List.mem_map_of_mem (fun f => (f, extract_date_from_filename y (pyBasename f))) hf)
      simpa using hb
    · rw [List.find?_map] at hfind
      cases hf : List.find? ((fun fd : String × PyDate =>
            fd.2.key == (extract_date_from_filename y (pyBasename f0)).key) ∘
            (fun f => (f, extract_date_from_filename y (pyBasename f)))) files with
      | none => rw [hf] at hfind; simp at hfind
      | some f1 =>
        rw [hf] at hfind
        simp at hfind
        have heq : List.find? (fun f =>
            (extract_date_from_filename y (pyBasename f)).key ==
              (extract_date_from_filename y (pyBasename f0)).key) files = some f1 := hf
        rw [heq, hfind.1]

theorem C5_witness :
    get_latest_file 2026 [] = none ∧
    ∃ r, get_latest_file 2026 ["Облік 01.03.24.xlsx", "Облік 15.02.24.xlsx"] = some r ∧
      r ∈ ["Облік 01.03.24.xlsx", "Облік 15.02.24.xlsx"] ∧
      (∀ f ∈ ["Облік 01.03.24.xlsx", "Облік 15.02.24.xlsx"],
        (extract_date_from_filename 2026 (pyBasename f)).key ≤
          (extract_date_from_filename 2026 (pyBasename r)).key) ∧
      List.find? (fun f => (extract_date_from_filename 2026 (pyBasename f)).key ==
        (extract_date_from_filename 2026 (pyBasename r)).key)
        ["Облік 01.03.24.xlsx", "Облік 15.02.24.xlsx"] = some r :=
  C5_pick_latest 2026 ["Облік 01.03.24.xlsx", "Облік 15.02.24.xlsx"] (by simp)

/-! ## The stock grid parser (C6, C7) -/

/-- A loaded spreadsheet: the row list plus pandas' fixed column count
(`len(df.columns)`); rows of a well-formed grid have `ncols` cells. -/
structure Grid where
  rows : List (List Cell)
  ncols : Nat

def Grid.cell (g : Grid) (i j : Nat) : Cell := (g.rows.getD i []).getD j Cell.empty

/-- The store-name marker test of `load_stocks_file` (source line 1067):
a cell qualifies when it is a string whose lower-cased form contains
"арсен" or "ааа". -/
def isMarkerCell (c : Cell) : Bool :=
  match c with
  | Cell.str s => strHasInfix (pyLower s) "арсен" || strHasInfix (pyLower s) "ааа"
  | _ => false

/-- A store-header row candidate (source lines 1066-1067): more than 3
non-missing cells and at least one marker cell (markers are strings,
hence never dropped by `dropna`, so scanning the full row is equivalent
to scanning the `dropna` values as the source does). -/
def rowQualifies (row : List Cell) : Bool :=
  decide (3 < (row.filter (fun c => !c.isNa)).length) && row.any isMarkerCell

/-- The store-header scan over rows 0..14 (source lines 1064-1069). -/
def find_stores_row (g : Grid) : Option Nat :=
  (List.range (min 15 g.rows.length)).find? (fun i => rowQualifies (g.rows.getD i []))

/-- `Series.first_valid_index` (source line 1080): the first non-missing
cell's column index, `none` when the row is entirely missing. -/
def first_valid_index (row : List Cell) : Option Nat :=
  (List.range row.length).find? (fun j => !(row.getD j Cell.empty).isNa)

/-- Per-column store-name rule of the stores loop (source lines 1094-1104):
the trimmed string form of the header cell; the very first store column is
defaulted to "ААА" when blank or "nan"; any other blank column is skipped;
a column reading "итог" (case-insensitively) is skipped. -/
def store_of_col (ssc col : Nat) (c : Cell) : Option String :=
  let sn := pyStrip (pyStr c)
  let sn := if col == ssc && (sn == "" || pyLower sn == "nan") then "ААА" else sn
  if col != ssc && sn == "" then none
  else if pyLower sn == "итог" then none
  else some sn

/-- The stores loop over columns `stores_start_col .. ncols - 1`. -/
def build_stores (g : Grid) (sr ssc : Nat) : List String :=
  (List.range' ssc (g.ncols - ssc)).filterMap (fun col => store_of_col ssc col (g.cell sr col))

/-- Float-to-int truncation toward zero (`astype(int)`). -/
def ratTrunc (q : ℚ) : Int := if q < 0 then -((-q).floor) else q.floor

/-- `pd.to_numeric(..., errors='coerce').fillna(0).astype(int)` on one
quantity cell (source line 1114). -/
def to_int_qty (c : Cell) : Int :=
  match c with
  | Cell.num q => ratTrunc q
  | Cell.str s =>
    match parseDecimal s with
    | some q => ratTrunc q
    | none => 0
  | Cell.empty => 0

/-- One normalized stock record: the Арт and Найменування cells plus the
per-store integer quantities. -/
structure StockRow where
  art : Cell
  nm : Cell
  qtys : List Int
deriving DecidableEq, Repr

/-- The record rows of `stocks_df` (source lines 1108-1114): rows from the
data-start row on, restricted to the article/name/store columns, dropping
rows where both Арт and Найменування are missing, quantities coerced. -/
def build_records (g : Grid) (dsr ac nc ssc nStores : Nat) : List StockRow :=
  (g.rows.drop dsr).filterMap (fun row =>
    let a := row.getD ac Cell.empty
    let n := row.getD nc Cell.empty
    if a.isNa && n.isNa then none
    else some ⟨a, n, (List.range' ssc nStores).map (fun c => to_int_qty (row.getD c Cell.empty))⟩)

/-- The outcome of `load_stocks_file`: the detected layout positions, the
store list and the normalized records. -/
structure StocksData where
  stores_row : Nat
  data_start_row : Nat
  art_col : Nat
  name_col : Nat
  stores_start_col : Nat
  store_cols : List Nat
  stores : List String
  records : List StockRow

/-- `load_stocks_file` (source lines 1058-1117): find the store-header
row (else the source warns and returns); read the data-start row two rows
below (pandas raises when that row does not exist, modelled as `none`);
locate the article column, name column and store columns; build the store
list and records. -/
def load_stocks_file (g : Grid) : Option StocksData :=
  match find_stores_row g with
  | none => none
  | some sr =>
    if sr + 2 < g.rows.length then
      let dsr := sr + 2
      let ac := (first_valid_index (g.rows.getD dsr [])).getD 0
      let nc := ac + 1
      let ssc := nc + 1
      let stores := build_stores g sr ssc
      some { stores_row := sr, data_start_row := dsr, art_col := ac, name_col := nc,
             stores_start_col := ssc, store_cols := List.range' ssc (g.ncols - ssc),
             stores := stores,
             records := build_records g dsr ac nc ssc stores.length }
    else none

theorem find?_range'_first (s n i : Nat) (p : Nat → Bool)
    (hlo : s ≤ i) (hhi : i < s + n) (hp : p i = true)
    (hmin : ∀ j, s ≤ j → j < i → p j = false) :
    (List.range' s n).find? p = some i := by
  induction n generalizing s with
  | zero => omega
  | succ k ih =>
    rw [show List.range' s (k + 1) = s :: List.range' (s + 1) k from rfl]
    by_cases hsi : s = i
    · subst hsi
      exact List.find?_cons_of_pos _ hp
    · have hps : p s = false := hmin s (le_refl s) (by omega)
      rw [List.find?_cons_of_neg _ (by simp [hps])]
      exact ih (s + 1) (by omega) (by omega) (fun j hj1 hj2 => hmin j (by omega) hj2)

/-- Claim C6: when a row among 0..14 has more than 3 non-missing cells and
a store-marker cell, the first such row becomes the store-header row; the
data rows start exactly 2 rows below; the article column is the first
non-missing cell's column of that data-start row; the name column is one
to its right; and the store columns run from the next column to the grid's
last column. -/
theorem C6_stock_layout (g : Grid) (i j : Nat)
    (hi : i < min 15 g.rows.length)
    (hq : rowQualifies (g.rows.getD i []) = true)
    (hmin : ∀ k2, k2 < i → rowQualifies (g.rows.getD k2 []) = false)
    (hrow : i + 2 < g.rows.length)
    (hj : first_valid_index (g.rows.getD (i + 2) []) = some j) :
    find_stores_row g = some i ∧
    ∃ sd, load_stocks_file g = some sd ∧
      sd.stores_row = i ∧ sd.data_start_row = i + 2 ∧
      sd.art_col = j ∧ sd.name_col = j + 1 ∧ sd.stores_start_col = j + 2 ∧
      sd.store_cols = List.range' (j + 2) (g.ncols - (j + 2)) ∧
      sd.stores = build_stores g i (j + 2) := by
  have hfind : find_stores_row g = some i := by
    unfold find_stores_row
    rw [List.range_eq_range']
    exact find?_range'_first 0 (min 15 g.rows.length) i _ (Nat.zero_le i) (by omega) hq
      (fun k2 _ hk2 => hmin k2 hk2)
  refine ⟨hfind, ?_⟩
  have hac : (first_valid_index (g.rows.getD (i + 2) [])).getD 0 = j := by rw [hj]; rfl
  unfold load_stocks_file
  simp only [hfind]
  rw [if_pos hrow, hac]
  exact ⟨_, rfl, rfl, rfl, rfl, rfl, rfl, rfl, rfl⟩

/-- A concrete stock grid: header row with 4 non-missing cells (one with a
store marker) at row index 3, data starting at row 5, first valid column 1. -/
def gridC6 : Grid :=
  { rows :=
      [ [Cell.str "Звіт", Cell.empty, Cell.empty, Cell.empty, Cell.empty],
        [Cell.empty, Cell.empty, Cell.empty, Cell.empty, Cell.empty],
        [Cell.empty, Cell.empty, Cell.empty, Cell.empty, Cell.empty],
        [Cell.str "х", Cell.str "Арсенальна", Cell.str "ААА-2", Cell.str "Маг", Cell.empty],
        [Cell.empty, Cell.empty, Cell.empty, Cell.empty, Cell.empty],
        [Cell.empty, Cell.str "A100", Cell.str "Товар", Cell.str "5", Cell.str "3"],
        [Cell.empty, Cell.str "A200", Cell.str "Інший", Cell.str "0", Cell.str "2"] ],
    ncols := 5 }

theorem C6_witness :
    find_stores_row gridC6 = some 3 ∧
    ∃ sd, load_stocks_file gridC6 = some sd ∧
      sd.stores_row = 3 ∧ sd.data_start_row = 3 + 2 ∧
      sd.art_col = 1 ∧ sd.name_col = 1 + 1 ∧ sd.stores_start_col = 1 + 2 ∧
      sd.store_cols = List.range' (1 + 2) (gridC6.ncols - (1 + 2)) ∧
      sd.stores = build_stores gridC6 3 (1 + 2) :=
  C6_stock_layout gridC6 3 1 (by decide) (by decide)
    (by decide) (by decide) (by decide)

/-- Modelled from claim C7's wording: each store name is the trimmed
header-row cell; the very first store column is replaced by the sentinel
only when that name is blank; any other blank name is skipped; a column
whose name is the total marker is skipped. -/
def claim_store_of_col (ssc col : Nat) (c : Cell) : Option String :=
  let sn := pyStrip (pyStr c)
  let sn := if col == ssc && sn == "" then "ААА" else sn
  if col != ssc && sn == "" then none
  else if pyLower sn == "итог" then none
  else some sn

/-- The store list claim C7 predicts. -/
def claim_stores (g : Grid) (sr ssc : Nat) : List String :=
  (List.range' ssc (g.ncols - ssc)).filterMap
    (fun col => claim_store_of_col ssc col (g.cell sr col))

/-- A header row whose first store column (column 2) is a missing cell. -/
def gridC7 : Grid :=
  { rows := [[Cell.str "A", Cell.str "B", Cell.empty, Cell.str "Маг2"]], ncols := 4 }

/-- Claim C7 counterexample: with a missing first store-column header cell,
its trimmed string form is `"nan"`, which is not blank, so the claim keeps
it as the store name `"nan"`; the code instead substitutes the sentinel
`"ААА"` (it defaults on blank *or* `"nan"`). -/
theorem C7_counterexample :
    build_stores gridC7 0 2 = ["ААА", "Маг2"] ∧
    claim_stores gridC7 0 2 = ["nan", "Маг2"] ∧
    (["ААА", "Маг2"] : List String) ≠ ["nan", "Маг2"] := by
  exact ⟨by decide, by decide, by decide⟩

/-- Modelled from claim C7 as amended: the name is the trimmed string form
of the header cell; the very first store column is replaced by the
sentinel "ААА" when that name is blank or reads "nan" (the string form of
a missing cell); any other store column with a blank name is skipped; a
column whose name is the total marker "итог" (case-insensitive) is
skipped. -/
def amended_store_of_col (ssc col : Nat) (c : Cell) : Option String :=
  let sn := pyStrip (pyStr c)
  if col == ssc then
    let sn := if sn == "" || pyLower sn == "nan" then "ААА" else sn
    if pyLower sn == "итог" then none else some sn
  else
    if sn == "" then none
    else if pyLower sn == "итог" then none
    else some sn

theorem store_of_col_amended_eq (ssc col : Nat) (c : Cell) :
    store_of_col ssc col c = amended_store_of_col ssc col c := by
  unfold store_of_col amended_store_of_col
  by_cases hc : col = ssc
  · subst hc
    cases hb : (pyStrip (pyStr c) == "" || pyLower (pyStrip (pyStr c)) == "nan") with
    | true => simp [hb]
    | false => simp [hb]
  · cases hb : (pyStrip (pyStr c) == "") with
    | true => simp [hc, hb]
    | false => simp [hc, hb]

/-- Claim C7 (amended): the store list is exactly the left-to-right
per-column application of the amended rule — trimmed header cell as name,
the first store column defaulted to the sentinel when blank or "nan",
other blank columns skipped, and "итог" columns skipped. -/
theorem C7_store_list_amended (g : Grid) (sr ssc : Nat) :
    build_stores g sr ssc =
      (List.range' ssc (g.ncols - ssc)).filterMap
        (fun col => amended_store_of_col ssc col (g.cell sr col)) := by
  unfold build_stores
  congr 1
  funext col
  exact store_of_col_amended_eq ssc col (g.cell sr col)

/-! ## The stock resolver (C8, C10) -/

/-- The primary filter of `update_stocks_display` (source line 877):
records whose Найменування, as a trimmed string, equals the trimmed
selected name. -/
def nameMatches (table : List StockRow) (nm : String) : List StockRow :=
  table.filter (fun r => pyStrip (pyStr r.nm) == pyStrip nm)

/-- The fallback filter (source line 880): records whose Арт, as a trimmed
string, equals the trimmed selected article. -/
def artMatches (table : List StockRow) (article : String) : List StockRow :=
  table.filter (fun r => pyStrip (pyStr r.art) == pyStrip article)

/-- The stock lookup of `update_stocks_display` (source lines 876-888):
name filter first; when it is empty and the article is non-empty and
non-blank, the article filter is adopted only when it holds exactly one
record; the first record of whatever remains is displayed. -/
def resolve (table : List StockRow) (nm article : String) : Option StockRow :=
  let stock_items := nameMatches table nm
  let stock_items :=
    if stock_items.isEmpty && !(article == "") && !(pyStrip article == "") then
      let same_articles := artMatches table article
      if same_articles.length == 1 then same_articles else stock_items
    else stock_items
  stock_items.head?

/-- Claim C8: the resolver resolves by trimmed-name equality first; an
article fallback happens only when the name filter is empty and the
article non-empty, and is accepted only when exactly one record carries
that article — with two or more such records the result is no match. -/
theorem C8_resolver_fallback (table : List StockRow) (nm article : String) :
    (∀ r, (nameMatches table nm).head? = some r → resolve table nm article = some r) ∧
    (nameMatches table nm = [] → ∀ r, resolve table nm article = some r →
      pyStrip article ≠ "" ∧ artMatches table article = [r]) ∧
    (nameMatches table nm = [] → 2 ≤ (artMatches table article).length →
      resolve table nm article = none) ∧
    (nameMatches table nm = [] → pyStrip article ≠ "" → ∀ r,
      artMatches table article = [r] → resolve table nm article = some r) := by
  refine ⟨?_, ?_, ?_, ?_⟩
  · intro r hr
    have hne : (nameMatches table nm).isEmpty = false := by
      cases h : nameMatches table nm with
      | nil => rw [h] at hr; simp at hr
      | cons a t => simp [h]
    unfold resolve
    simp [hne, hr]
  · intro hempty r hres
    unfold resolve at hres
    simp only [hempty, List.isEmpty_nil, Bool.true_and] at hres
    by_cases ha1 : article = ""
    · simp [ha1] at hres
    · by_cases ha2 : pyStrip article = ""
      · simp [ha1, ha2] at hres
      · refine ⟨ha2, ?_⟩
        have hb1 : (article == "") = false := by simp [ha1]
        have hb2 : (pyStrip article == "") = false := by simp [ha2]
        simp only [hb1, hb2, Bool.not_false, Bool.and_true, if_true] at hres
        by_cases hlen : (artMatches table article).length = 1
        · cases h : artMatches table article with
          | nil => rw [h] at hlen; simp at hlen
          | cons a t =>
            rw [h] at hlen
            simp only [List.length_cons] at hlen
            have ht : t = [] := by
              cases t with
              | nil => rfl
              | cons b t2 => simp at hlen
            subst ht
            simp [h, hlen] at hres
            simp [hres]
        · have hl : ((artMatches table article).length == 1) = false := by simp [hlen]
          simp [hl] at hres
  · intro hempty hlen2
    have hlen : ((artMatches table article).length == 1) = false := by
      simp only [beq_eq_false_iff_ne]
      omega
    unfold resolve
    simp [hempty, hlen]
  · intro hempty ha2 r hart
    have ha1 : article ≠ "" := by
      intro h
      apply ha2
      rw [h]
      rfl
    have hb1 : (article == "") = false := by simp [ha1]
    have hb2 : (pyStrip article == "") = false := by simp [ha2]
    unfold resolve
    simp [hempty, hb1, hb2, hart]

/-- Claim C10: duplicate trimmed-name matches are not ambiguous — the
resolver returns the first matching record in table order. -/
theorem C10_first_name_match (table : List StockRow) (nm article : String) (r : StockRow)
    (rest : List StockRow) (h : nameMatches table nm = r :: rest) :
    resolve table nm article = some r := by
  unfold resolve
  simp [h]

def stockTbl : List StockRow :=
  [⟨Cell.str "A123", Cell.str "Товар X", [5]⟩,
   ⟨Cell.str "B200", Cell.str "Товар Y", [2]⟩]

def stockTblDup : List StockRow :=
  [⟨Cell.str "A123", Cell.str "Товар X", [5]⟩,
   ⟨Cell.str "A123", Cell.str "Товар Z", [2]⟩]

theorem C8_witness :
    resolve stockTbl "NoMatch" "A123" = some ⟨Cell.str "A123", Cell.str "Товар X", [5]⟩ ∧
    resolve stockTblDup "NoMatch" "A123" = none :=
  ⟨(C8_resolver_fallback stockTbl "NoMatch" "A123").2.2.2 (by decide) (by decide)
      ⟨Cell.str "A123", Cell.str "Товар X", [5]⟩ (by decide),
   (C8_resolver_fallback stockTblDup "NoMatch" "A123").2.2.1 (by decide) (by decide)⟩

def stockTblNm : List StockRow :=
  [⟨Cell.str "B1", Cell.str "Widget A", [1]⟩,
   ⟨Cell.str "B2", Cell.str "Widget A", [2]⟩]

theorem C10_witness :
    resolve stockTblNm "Widget A" "" = some ⟨Cell.str "B1", Cell.str "Widget A", [1]⟩ :=
  C10_first_name_match stockTblNm "Widget A" ""
    ⟨Cell.str "B1", Cell.str "Widget A", [1]⟩
    [⟨Cell.str "B2", Cell.str "Widget A", [2]⟩] (by decide)

/-! ## The history log (C9) -/

/-- One history entry: its timestamp in minutes (matching the
"%Y-%m-%d %H:%M" stamps the source stores and re-parses) and the logged
message. -/
structure HistoryEntry where
  ts : Nat
  msg : String
deriving DecidableEq, Repr

/-- The history-relevant state: the entry list (newest first) and
`self.last_query`. -/
structure HistState where
  history : List HistoryEntry
  last_query : Option String
deriving DecidableEq, Repr

/-- `log_action` (source lines 577-582): prepend the timestamped message
and cap the list at its 100 newest entries. -/
def log_action (now : Nat) (msg : String) (h : List HistoryEntry) : List HistoryEntry :=
  (⟨now, msg⟩ :: h).take 100

/-- The history-recording step of `search_items` for a non-empty query
with `record_history=True` (source lines 743-764): no entry when the query
equals the previously recorded one; `last_query` is updated either way.
The message logged is built elsewhere (`history_message` or the bare
query) and is passed in here. -/
def record_query (now : Nat) (query msg : String) (st : HistState) : HistState :=
  if st.last_query == some query then { st with last_query := some query }
  else { history := log_action now msg st.history, last_query := some query }

/-- The 2-day retention filter applied at save and at load (source lines
621-626 and 637-642): keep entries whose timestamp is strictly newer than
`now` minus 2 days (2880 minutes). -/
def recent_only (now : Nat) (entries : List HistoryEntry) : List HistoryEntry :=
  entries.filter (fun e => decide (now < e.ts + 2880))

/-- `save_history` (source lines 619-630): the list written to the
history file. -/
def save_history (now : Nat) (st : HistState) : List HistoryEntry :=
  recent_only now st.history

/-- `load_history` (source lines 632-648): replace the in-memory history
by the filtered file contents, then log the load notice (the `finally`
block runs `log_action`); `last_query` is untouched. -/
def load_history (now : Nat) (saved : List HistoryEntry) (st : HistState) : HistState :=
  { history := log_action now "Історію завантажено" (recent_only now saved),
    last_query := st.last_query }

/-- Claim C9: recording the same query twice in a row stores exactly one
entry (the second record changes nothing); a fresh record prepends one
entry and keeps only the 100 newest (oldest dropped); the cap is preserved
by every record and enforced by every load; and no entry older than 2 days
survives a save or a load. -/
theorem C9_history_invariants (now now2 : Nat) (q m1 m2 : String) (st : HistState)
    (saved : List HistoryEntry) :
    ((record_query now2 q m2 (record_query now q m1 st)).history =
      (record_query now q m1 st).history) ∧
    (st.last_query ≠ some q →
      (record_query now q m1 st).history =
        ((⟨now, m1⟩ : HistoryEntry) :: st.history).take 100) ∧
    (st.history.length ≤ 100 → (record_query now q m1 st).history.length ≤ 100) ∧
    (st.last_query ≠ some q → (record_query now q m1 st).history.length ≤ 100) ∧
    ((load_history now saved st).history.length ≤ 100) ∧
    (∀ e ∈ save_history now st, ¬ e.ts + 2880 < now) ∧
    (∀ e ∈ (load_history now saved st).history, ¬ e.ts + 2880 < now) := by
  have hcap : ∀ (n : Nat) (ms : String) (l : List HistoryEntry),
      (log_action n ms l).length ≤ 100 := by
    intro n ms l
    simp only [log_action, List.length_take]
    exact Nat.min_le_left _ _
  have hrecent : ∀ (n : Nat) (l : List HistoryEntry), ∀ e ∈ recent_only n l,
      ¬ e.ts + 2880 < n := by
    intro n l e he
    have := (List.mem_filter.mp he).2
    simp only [decide_eq_true_eq] at this
    omega
  refine ⟨?_, ?_, ?_, ?_, hcap now _ _, hrecent now _, ?_⟩
  · cases hc : (st.last_query == some q) with
    | true => simp [record_query, hc]
    | false => simp [record_query, hc]
  · intro hne
    have hc : (st.last_query == some q) = false := by simp [hne]
    simp [record_query, hc, log_action]
  · intro hlen
    cases hc : (st.last_query == some q) with
    | true => simpa [record_query, hc] using hlen
    | false =>
      simp only [record_query, hc, if_false, Bool.false_eq_true]
      exact hcap now m1 st.history
  · intro hne
    have hc : (st.last_query == some q) = false := by simp [hne]
    simp only [record_query, hc, if_false, Bool.false_eq_true]
    exact hcap now m1 st.history
  · intro e he
    simp only [load_history, log_action] at he
    have he2 := List.mem_of_mem_take he
    rcases List.mem_cons.mp he2 with rfl | he3
    · show ¬ now + 2880 < now
      omega
    · exact hrecent now saved e he3

theorem C9_witness :
    ((record_query 1001 "балон" "x" (record_query 1000 "балон" "балон" ⟨[], none⟩)).history =
      (record_query 1000 "балон" "балон" ⟨[], none⟩).history) ∧
    ((record_query 1000 "балон" "балон" ⟨[], none⟩).history =
      ((⟨1000, "балон"⟩ : HistoryEntry) :: []).take 100) ∧
    ((record_query 1000 "балон" "балон" ⟨[], none⟩).history.length ≤ 100) ∧
    (∀ e ∈ save_history 5000 ⟨[⟨4000, "a"⟩, ⟨100, "b"⟩], none⟩, ¬ e.ts + 2880 < 5000) :=
  ⟨(C9_history_invariants 1000 1001 "балон" "балон" "x" ⟨[], none⟩ []).1,
   (C9_history_invariants 1000 1001 "балон" "балон" "x" ⟨[], none⟩ []).2.1 (by simp),
   (C9_history_invariants 1000 1001 "балон" "балон" "x" ⟨[], none⟩ []).2.2.2.1 (by simp),
   (C9_history_invariants 5000 0 "q" "m" "m" ⟨[⟨4000, "a"⟩, ⟨100, "b"⟩], none⟩ []).2.2.2.2.2.1⟩

/-! ## Supporting facts and sanity anchors -/

/-- For dates whose month and day are below 100 — every date this program
builds — the packed `PyDate.key` respects the lexicographic
(year, month, day) order of `datetime` comparison. -/
theorem key_lt_of_lex (a b : PyDate) (hma : a.month < 100) (hda : a.day < 100)
    (hmb : b.month < 100) (hdb : b.day < 100)
    (h : a.year < b.year ∨ (a.year = b.year ∧ (a.month < b.month ∨
      (a.month = b.month ∧ a.day < b.day)))) : a.key < b.key := by
  unfold PyDate.key
  rcases h with h | ⟨he, h | ⟨he2, h⟩⟩ <;> omega

example : extract_date_from_filename 2026 "Облік 15.02.24.xlsx" = ⟨2024, 2, 15⟩ := by decide
example : extract_date_from_filename 2026 "Облік 05.03.xlsx" = ⟨2026, 3, 5⟩ := by decide
example : extract_date_from_filename 2026 "Облік 13.13.xlsx" = dateMin := by decide
example : extract_date_from_filename 2026 "zvit.xlsx" = dateMin := by decide
example : get_latest_file 2026 ["Облік 01.03.24.xlsx", "Облік 15.02.24.xlsx"] =
    some "Облік 01.03.24.xlsx" := by decide
example : build_stores gridC6 3 3 = ["Маг", "nan"] := by decide
example : search_items cmDefault tblC2 "бал" = [tblC2.getD 1 []] := by decide
example : resolve stockTbl "Товар Y" "A123" = some ⟨Cell.str "B200", Cell.str "Товар Y", [2]⟩ := by
  decide
